import Mathlib

/-!
# Verification of the SQL Server 3NF audit pipeline

A shallow embedding of the pure decision logic of `sqlserver_3nf_audit.py`:
the sampling planner, determinant scoring and pool construction, key/FD
statistics and classification, FD minimization, the 2NF/3NF analyzer, the
proposal builder, and the runner's scope filter.

Conventions of the embedding:
* Python floats are modelled as exact rationals (`ℚ`).  All quantities the
  program manipulates here are ratios of machine integers, so the rational
  model tracks the float program except for sub-ulp rounding, which none of
  the verified properties depend on.
* `%.4f` formatting is modelled by scaling to `10^4` and rounding half-up;
  the program only formats values that are exact at 4 decimals, so the
  tie-breaking convention is immaterial.
* Python `None` becomes `Option`, and Python truthiness on containers
  (`if forced:`, `if scope.get(...) and ...`) is translated explicitly
  (`none` or an empty container is falsy).
* Regular expressions appear in three fixed roles: the anchored ETL-column
  exclusion pattern and the column-name hint pattern are translated
  literally; the user-configurable scope regexes are modelled as abstract
  `String → Bool` match oracles (the semantics of `re.search` on an unknown
  pattern is not part of the program under audit).
-/

namespace Audit

/-! ## Configuration constants (`CONFIG` in the source) -/

/-- `CONFIG["SAMPLING"]["FULL_SCAN_MAX_ROWS"]`. -/
def FULL_SCAN_MAX_ROWS : ℕ := 2000000

/-- `CONFIG["SAMPLING"]["SAMPLE_TARGET_ROWS"]`. -/
def SAMPLE_TARGET_ROWS : ℕ := 200000

/-- `CONFIG["SAMPLING"]["SAMPLE_MIN_PCT"]`. -/
def SAMPLE_MIN_PCT : ℚ := 0.2

/-- `CONFIG["SAMPLING"]["SAMPLE_MAX_PCT"]`. -/
def SAMPLE_MAX_PCT : ℚ := 2.0

/-- `CONFIG["THRESHOLDS"]["KEY_MAX_DUP_ROW_PCT"]`. -/
def KEY_MAX_DUP_ROW_PCT : ℚ := 0.01

/-- `CONFIG["THRESHOLDS"]["KEY_MAX_NULL_ROW_PCT"]`. -/
def KEY_MAX_NULL_ROW_PCT : ℚ := 0.0

/-- `CONFIG["THRESHOLDS"]["FD_MAX_VIOLATING_GROUP_PCT"]`. -/
def FD_MAX_VIOLATING_GROUP_PCT : ℚ := 0.1

/-- `CONFIG["THRESHOLDS"]["FD_MAX_VIOLATING_ROW_PCT"]`. -/
def FD_MAX_VIOLATING_ROW_PCT : ℚ := 0.01

/-- `CONFIG["THRESHOLDS"]["FD_MIN_COVERAGE_PCT"]`. -/
def FD_MIN_COVERAGE_PCT : ℚ := 20

/-- `CONFIG["LIMITS"]["DETERMINANT_POOL_SIZE"]`. -/
def DETERMINANT_POOL_SIZE : ℕ := 15

/-- `CONFIG["BLOB_TYPES"]` (a Python set of lowercase type names). -/
def BLOB_TYPES : List String :=
  ["xml", "image", "text", "ntext", "geography", "geometry", "hierarchyid",
   "sql_variant", "varbinary", "varbinary(max)", "varchar(max)", "nvarchar(max)"]

/-! ## Sampling planner (`build_sample_clause`) -/

/-- Python `f"{q:.4f}"` for the nonnegative rationals this program formats:
scale by `10^4`, round half-up, print with a 4-digit zero-padded fraction. -/
def formatFixed4 (q : ℚ) : String :=
  let scaled : ℤ := ⌊q * 10000 + 1 / 2⌋
  let whole := scaled.toNat / 10000
  let frac := scaled.toNat % 10000
  let fracStr := toString frac
  toString whole ++ "." ++ String.mk (List.replicate (4 - fracStr.length) '0') ++ fracStr

/-- The percentage computed in the sampling branch of `build_sample_clause`:
`max(SAMPLE_MIN_PCT, min(SAMPLE_TARGET_ROWS / total_rows * 100, SAMPLE_MAX_PCT))`. -/
def samplePct (total_rows : ℕ) : ℚ :=
  max SAMPLE_MIN_PCT (min ((SAMPLE_TARGET_ROWS : ℚ) / total_rows * 100) SAMPLE_MAX_PCT)

/-- `build_sample_clause(total_rows)` from the source. -/
def build_sample_clause (total_rows : ℕ) : String :=
  if total_rows ≤ FULL_SCAN_MAX_ROWS then ""
  else "TABLESAMPLE (" ++ formatFixed4 (samplePct total_rows) ++ " PERCENT)"

/-! ## Data containers -/

/-- `ColumnProfile` dataclass.  `min_value`/`max_value` are heterogeneous
database literals never inspected by the verified logic; they are modelled
as opaque strings. -/
structure ColumnProfile where
  name : String
  data_type : String
  nullable : Bool
  distinct_count : Option ℕ := none
  null_count : Option ℕ := none
  null_pct : Option ℚ := none
  min_value : Option String := none
  max_value : Option String := none
  score : ℚ := 0
deriving DecidableEq, Repr

/-- `TableProfile` dataclass. -/
structure TableProfile where
  schema : String
  table : String
  row_count : ℕ
  sample_clause : String
  columns : List ColumnProfile
  determinant_pool : List String := []
deriving DecidableEq, Repr

/-- `KeyCandidate` dataclass. -/
structure KeyCandidate where
  columns : List String
  tested_rows : ℕ
  duplicate_excess_rows : ℕ
  dup_pct : ℚ
  null_rows : ℕ
  null_pct : ℚ
deriving DecidableEq, Repr

/-- `KeyCandidate.is_strong`. -/
def KeyCandidate.is_strong (k : KeyCandidate) : Prop :=
  k.dup_pct ≤ KEY_MAX_DUP_ROW_PCT ∧ k.null_pct ≤ KEY_MAX_NULL_ROW_PCT

instance (k : KeyCandidate) : Decidable k.is_strong := by
  unfold KeyCandidate.is_strong
  infer_instance

/-- `FunctionalDependency` dataclass.  A sample violation row pairs column
names with rendered values. -/
structure FunctionalDependency where
  determinant : List String
  dependent : String
  tested_rows : ℕ
  coverage_pct : ℚ
  total_groups : ℕ
  violating_groups : ℕ
  violating_groups_pct : ℚ
  violating_rows : ℕ
  violating_rows_pct : ℚ
  sample_violations : List (List (String × String)) := []
deriving DecidableEq, Repr

/-- `FunctionalDependency.is_strong`. -/
def FunctionalDependency.is_strong (fd : FunctionalDependency) : Prop :=
  FD_MIN_COVERAGE_PCT ≤ fd.coverage_pct ∧
  fd.violating_groups_pct ≤ FD_MAX_VIOLATING_GROUP_PCT ∧
  fd.violating_rows_pct ≤ FD_MAX_VIOLATING_ROW_PCT

instance (fd : FunctionalDependency) : Decidable fd.is_strong := by
  unfold FunctionalDependency.is_strong
  infer_instance

/-- `Proposal` dataclass. -/
structure Proposal where
  determinant : List String
  dependents : List String
  confidence : ℚ
  notes : List String
deriving DecidableEq, Repr

/-! ## Determinant selector -/

/-- ASCII lowercasing of a name's code points (`str.lower()` /
`re.IGNORECASE` for the ASCII identifiers this tool matches). -/
def lowerChars (s : String) : List Char :=
  s.data.map Char.toLower

/-- `str.startswith` on code-point sequences. -/
def charsPrefix : List Char → List Char → Bool
  | [], _ => true
  | _ :: _, [] => false
  | a :: as, b :: bs => a == b && charsPrefix as bs

/-- `re.search` with `DeterminantSelector.NAME_HINT_RE`, the case-insensitive
unanchored pattern `(id|code|nr|key|number|uuid|guid)`: some alternative
occurs as a substring of the lowercased name. -/
def nameHintSearch (name : String) : Bool :=
  ["id", "code", "nr", "key", "number", "uuid", "guid"].any fun pat =>
    decide (pat.data <:+: lowerChars name)

/-- `re.search` with `CONFIG["EXCLUDE_COLUMNS_REGEX"]`, the case-insensitive
anchored pattern
`^(created|createdon|created_at|updated|updatedon|updated_at|load_.*|etl_.*|dw_.*|hash_.*|rowversion|timestamp)$`:
the lowercased name equals one of the literal alternatives or starts with one
of the wildcard stems. -/
def etlExcluded (name : String) : Bool :=
  (["created", "createdon", "created_at", "updated", "updatedon", "updated_at",
    "rowversion", "timestamp"].any fun pat => lowerChars name == pat.data) ||
  (["load_", "etl_", "dw_", "hash_"].any fun pat => charsPrefix pat.data (lowerChars name))

namespace DeterminantSelector

/-- `DeterminantSelector.score_column`; `profile_row_count` is
`self.profile.row_count`. -/
def score_column (profile_row_count : ℕ) (col : ColumnProfile) : ℚ :=
  let row_count : ℚ := ((max profile_row_count 1 : ℕ) : ℚ)
  let nnRatio : ℚ := 1 - ((col.null_count.getD 0 : ℕ) : ℚ) / row_count
  let dRatio : ℚ := min (((col.distinct_count.getD 0 : ℕ) : ℚ) / row_count) 1.5
  let typeBonus : ℚ :=
    if col.data_type ∈ ["int", "bigint", "uniqueidentifier", "date", "datetime", "datetime2"]
      then 0.2
    else if charsPrefix "nvarchar".data col.data_type.data ||
        charsPrefix "varchar".data col.data_type.data
      then -0.05
    else 0
  let nameBonus : ℚ := if nameHintSearch col.name then 0.15 else 0
  let blobPenalty : ℚ := if col.data_type ∈ BLOB_TYPES then -0.3 else 0
  nnRatio * 0.6 + dRatio * 0.6 + typeBonus + nameBonus + blobPenalty

/-- Descending-score comparison used by `sorted(..., key=lambda c: c.score,
reverse=True)`; a stable insertion sort with this relation reproduces
Python's stable descending sort. -/
def scoreGE (c d : ColumnProfile) : Prop :=
  d.score ≤ c.score

instance : DecidableRel scoreGE :=
  fun c d => inferInstanceAs (Decidable (d.score ≤ c.score))

instance : IsTotal ColumnProfile scoreGE :=
  ⟨fun a b => le_total b.score a.score⟩

instance : IsTrans ColumnProfile scoreGE :=
  ⟨fun _ _ _ hab hbc => le_trans hbc hab⟩

/-- `DeterminantSelector.build_pool`: score every column, sort by descending
score, drop ETL-excluded names, truncate to `DETERMINANT_POOL_SIZE`. -/
def build_pool (profile : TableProfile) : List String :=
  let scored := profile.columns.map fun c => { c with score := score_column profile.row_count c }
  let sorted_cols := scored.insertionSort scoreGE
  let pool := (sorted_cols.filter fun c => !etlExcluded c.name).map ColumnProfile.name
  pool.take DETERMINANT_POOL_SIZE

end DeterminantSelector

/-! ## Key finder and FD discoverer statistics

The SQL queries of `_combination_stats` and `_fd_stats` are external
measurements; the embedded functions take the returned counts as arguments
and perform the arithmetic and classification the source performs on them. -/

/-- `KeyFinder._combination_stats` after its three `COUNT` queries returned
`tested_rows`, `duplicate_excess_rows` and `null_rows`. -/
def KeyFinder.combination_stats (cols : List String)
    (tested_rows duplicate_excess_rows null_rows : ℕ) : KeyCandidate :=
  { columns := cols
    tested_rows := tested_rows
    duplicate_excess_rows := duplicate_excess_rows
    dup_pct := if tested_rows ≠ 0 then (duplicate_excess_rows : ℚ) / tested_rows else 1.0
    null_rows := null_rows
    null_pct :=
      if tested_rows + null_rows ≠ 0 then (null_rows : ℚ) / ((tested_rows : ℚ) + (null_rows : ℚ))
      else 0.0 }

/-- `FDDiscoverer._fd_stats` after its queries returned the row, group and
violation counts; `row_count` is `self.profile.row_count`. -/
def FDDiscoverer.fd_stats (determinant : List String) (dependent : String)
    (tested_rows row_count total_groups violating_groups violating_rows : ℕ)
    (sample : List (List (String × String))) : FunctionalDependency :=
  { determinant := determinant
    dependent := dependent
    tested_rows := tested_rows
    coverage_pct := if row_count ≠ 0 then (tested_rows : ℚ) / row_count * 100 else 0
    total_groups := total_groups
    violating_groups := violating_groups
    violating_groups_pct :=
      if total_groups ≠ 0 then (violating_groups : ℚ) / total_groups * 100 else 0
    violating_rows := violating_rows
    violating_rows_pct :=
      if tested_rows ≠ 0 then (violating_rows : ℚ) / tested_rows * 100 else 0
    sample_violations := sample }

/-! ## FD minimization -/

/-- Python string comparison `a < b`: lexicographic comparison of the code
point sequences. -/
def strLt (a b : String) : Prop :=
  List.Lex (· < ·) a.data b.data

instance : DecidableRel strLt :=
  fun a b => inferInstanceAs (Decidable (List.Lex (· < ·) a.data b.data))

instance : IsTrans String strLt :=
  ⟨fun _ _ _ hab hbc => trans_of (List.Lex (· < · : Char → Char → Prop)) hab hbc⟩

instance : IsIrrefl String strLt :=
  ⟨fun a => irrefl_of (List.Lex (· < · : Char → Char → Prop)) a.data⟩

instance : IsTrichotomous String strLt := by
  refine ⟨fun a b => ?_⟩
  rcases trichotomous_of (List.Lex (· < · : Char → Char → Prop)) a.data b.data with h | h | h
  · exact Or.inl h
  · refine Or.inr (Or.inl ?_)
    cases a
    cases b
    exact congrArg String.mk h
  · exact Or.inr (Or.inr h)

instance : IsStrictTotalOrder String strLt where

/-- The strict order of `_minimize`'s Python sort key
`lambda f: (len(f.determinant), f.determinant, f.dependent)`:
lexicographic on (determinant length, determinant tuple, dependent). -/
def fdKeyLt (a b : FunctionalDependency) : Prop :=
  a.determinant.length < b.determinant.length ∨
    (a.determinant.length = b.determinant.length ∧
      (List.Lex strLt a.determinant b.determinant ∨
        (a.determinant = b.determinant ∧ strLt a.dependent b.dependent)))

instance : DecidableRel fdKeyLt := by
  unfold fdKeyLt
  infer_instance

/-- The non-strict comparison a stable sort by `fdKeyLt` uses. -/
def fdLE (a b : FunctionalDependency) : Prop :=
  ¬ fdKeyLt b a

instance : DecidableRel fdLE := by
  unfold fdLE
  infer_instance

theorem fdKeyLt_irrefl (a : FunctionalDependency) : ¬ fdKeyLt a a := by
  rintro (h | ⟨-, h | ⟨-, h⟩⟩)
  · exact lt_irrefl _ h
  · exact irrefl_of (List.Lex strLt) _ h
  · exact irrefl_of strLt _ h

theorem fdKeyLt_trans {a b c : FunctionalDependency} (hab : fdKeyLt a b) (hbc : fdKeyLt b c) :
    fdKeyLt a c := by
  rcases hab with h₁ | ⟨e₁, h₁⟩ <;> rcases hbc with h₂ | ⟨e₂, h₂⟩
  · exact Or.inl (h₁.trans h₂)
  · exact Or.inl (e₂ ▸ h₁)
  · exact Or.inl (e₁ ▸ h₂)
  · refine Or.inr ⟨e₁.trans e₂, ?_⟩
    rcases h₁ with h₁ | ⟨d₁, h₁⟩ <;> rcases h₂ with h₂ | ⟨d₂, h₂⟩
    · exact Or.inl (Trans.trans h₁ h₂)
    · exact Or.inl (d₂ ▸ h₁)
    · exact Or.inl (d₁ ▸ h₂)
    · exact Or.inr ⟨d₁.trans d₂, Trans.trans h₁ h₂⟩

theorem fdKeyLt_trichotomy (a b : FunctionalDependency) :
    fdKeyLt a b ∨ (a.determinant = b.determinant ∧ a.dependent = b.dependent) ∨ fdKeyLt b a := by
  rcases Nat.lt_trichotomy a.determinant.length b.determinant.length with h | e | h
  · exact Or.inl (Or.inl h)
  · rcases trichotomous_of (List.Lex strLt) a.determinant b.determinant with h | d | h
    · exact Or.inl (Or.inr ⟨e, Or.inl h⟩)
    · rcases trichotomous_of strLt a.dependent b.dependent with h | hd | h
      · exact Or.inl (Or.inr ⟨e, Or.inr ⟨d, h⟩⟩)
      · exact Or.inr (Or.inl ⟨d, hd⟩)
      · exact Or.inr (Or.inr (Or.inr ⟨e.symm, Or.inr ⟨d.symm, h⟩⟩))
    · exact Or.inr (Or.inr (Or.inr ⟨e.symm, Or.inl h⟩))
  · exact Or.inr (Or.inr (Or.inl h))

/-- `fdKeyLt` only looks at the determinant and the dependent. -/
theorem fdKeyLt_congr {a a' b b' : FunctionalDependency}
    (ha : a.determinant = a'.determinant ∧ a.dependent = a'.dependent)
    (hb : b.determinant = b'.determinant ∧ b.dependent = b'.dependent) :
    fdKeyLt a b → fdKeyLt a' b' := by
  unfold fdKeyLt
  rw [ha.1, ha.2, hb.1, hb.2]
  exact id

instance : IsTotal FunctionalDependency fdLE := by
  refine ⟨fun a b => ?_⟩
  by_contra h
  push_neg at h
  obtain ⟨h₁, h₂⟩ := h
  rw [fdLE, not_not] at h₁ h₂
  exact fdKeyLt_irrefl b (fdKeyLt_trans h₁ h₂)

instance : IsTrans FunctionalDependency fdLE := by
  refine ⟨fun a b c hab hbc hca => ?_⟩
  rcases fdKeyLt_trichotomy a b with h | e | h
  · exact hbc (fdKeyLt_trans hca h)
  · exact hbc (fdKeyLt_congr ⟨rfl, rfl⟩ e hca)
  · exact hab h

/-- The accumulation loop of `_minimize`: walk the sorted FDs, skip the
non-strong ones, and append an FD unless an already-accepted FD has a
determinant that is a subset of its determinant (`set(acc.determinant)
.issubset(fd.determinant)`) and the same dependent. -/
def FDDiscoverer.minimizeLoop :
    List FunctionalDependency → List FunctionalDependency → List FunctionalDependency
  | accepted, [] => accepted
  | accepted, fd :: rest =>
    if fd.is_strong then
      if ∃ acc ∈ accepted, (∀ c ∈ acc.determinant, c ∈ fd.determinant) ∧
          acc.dependent = fd.dependent then
        FDDiscoverer.minimizeLoop accepted rest
      else
        FDDiscoverer.minimizeLoop (accepted ++ [fd]) rest
    else
      FDDiscoverer.minimizeLoop accepted rest

/-- `FDDiscoverer._minimize`. -/
def FDDiscoverer._minimize (fds : List FunctionalDependency) : List FunctionalDependency :=
  FDDiscoverer.minimizeLoop [] (fds.insertionSort fdLE)

/-! ## Normalization analyzer -/

/-- The dictionary produced by `NormalizationAnalyzer._fd_summary`. -/
structure FDSummary where
  determinant : List String
  dependent : String
  coverage_pct : ℚ
  violating_groups_pct : ℚ
  violating_rows_pct : ℚ
deriving DecidableEq, Repr

/-- `NormalizationAnalyzer._fd_summary`. -/
def NormalizationAnalyzer.fd_summary (fd : FunctionalDependency) : FDSummary :=
  { determinant := fd.determinant
    dependent := fd.dependent
    coverage_pct := fd.coverage_pct
    violating_groups_pct := fd.violating_groups_pct
    violating_rows_pct := fd.violating_rows_pct }

/-- `NormalizationAnalyzer.working_key`: the `FORCE_KEY` override when truthy,
else the first key candidate's columns, else the first pool column, else
empty. -/
def NormalizationAnalyzer.working_key (force_key : Option (List String))
    (keys : List KeyCandidate) (determinant_pool : List String) : List String :=
  let fallback :=
    match keys with
    | k :: _ => k.columns
    | [] => determinant_pool.take 1
  match force_key with
  | some forced => if forced = [] then fallback else forced
  | none => fallback

/-- The FDs collected into `second_nf` by `NormalizationAnalyzer.analyze`:
the loop skips everything when `key_cols` is empty, then requires a composite
key, a determinant that is a proper subset of it, and a non-prime dependent. -/
def NormalizationAnalyzer.second_nf_fds (key_cols : Finset String)
    (fds : List FunctionalDependency) : List FunctionalDependency :=
  fds.filter fun fd =>
    decide (key_cols.Nonempty ∧ 1 < key_cols.card ∧ fd.determinant.toFinset ⊆ key_cols ∧
      fd.determinant.toFinset ≠ key_cols ∧ fd.dependent ∉ key_cols)

/-- The FDs collected into `third_nf` by `NormalizationAnalyzer.analyze`:
the loop skips everything when `key_cols` is empty, then requires a
determinant that is not a superset of the key and a non-prime dependent. -/
def NormalizationAnalyzer.third_nf_fds (key_cols : Finset String)
    (fds : List FunctionalDependency) : List FunctionalDependency :=
  fds.filter fun fd =>
    decide (key_cols.Nonempty ∧ ¬ key_cols ⊆ fd.determinant.toFinset ∧
      fd.dependent ∉ key_cols)

/-- The dictionary returned by `NormalizationAnalyzer.analyze`.  The source
renders `prime_columns` as `list(set(working_key))` in unspecified set order;
it is embedded as the deduplicated working key (no verified property depends
on its order). -/
structure NormalizationResult where
  working_key : List String
  prime_columns : List String
  second_nf_issues : List FDSummary
  third_nf_issues : List FDSummary
deriving DecidableEq, Repr

/-- `NormalizationAnalyzer.analyze`, with the override, key candidates,
determinant pool and accepted FDs it reads from its inputs. -/
def NormalizationAnalyzer.analyze (force_key : Option (List String))
    (keys : List KeyCandidate) (determinant_pool : List String)
    (fds : List FunctionalDependency) : NormalizationResult :=
  let wk := NormalizationAnalyzer.working_key force_key keys determinant_pool
  let key_cols := wk.toFinset
  { working_key := wk
    prime_columns := wk.dedup
    second_nf_issues :=
      (NormalizationAnalyzer.second_nf_fds key_cols fds).map NormalizationAnalyzer.fd_summary
    third_nf_issues :=
      (NormalizationAnalyzer.third_nf_fds key_cols fds).map NormalizationAnalyzer.fd_summary }

/-! ## Proposal builder -/

/-- `ProposalBuilder.build`: one proposal per 3NF issue. -/
def ProposalBuilder.build (normalization : NormalizationResult) : List Proposal :=
  normalization.third_nf_issues.map fun issue =>
    { determinant := issue.determinant
      dependents := [issue.dependent]
      confidence := max 0.1 (1 - issue.violating_rows_pct)
      notes :=
        ["Review semantics and ensure determinant uniquely identifies dependent attributes.",
         "Validate coverage and row counts before applying any schema change."] }

/-! ## Runner scope filter -/

/-- `CONFIG["SCOPE"]`.  Each regex slot is an abstract `re.search` oracle
(`none` when the option is unset); the allowlist is an explicit name list. -/
structure Scope where
  include_schemas : Option (String → Bool) := none
  exclude_schemas : Option (String → Bool) := none
  include_tables : Option (String → Bool) := none
  exclude_tables : Option (String → Bool) := none
  table_allowlist : Option (List String) := none

/-- `qualifies(scope_regex, value)`: `None` passes, otherwise `re.search`. -/
def qualifies (scope_regex : Option (String → Bool)) (value : String) : Bool :=
  match scope_regex with
  | none => true
  | some r => r value

/-- `Runner._in_scope`.  `scope.get(...) and ...` guards translate Python
truthiness: an absent or empty allowlist and an absent exclude pattern are
falsy, so those checks are skipped. -/
def Runner.in_scope (scope : Scope) (schema table : String) : Bool :=
  let fq := schema ++ "." ++ table
  if (match scope.table_allowlist with
      | some l => !l.isEmpty && !l.contains fq
      | none => false) then false
  else if !qualifies scope.include_schemas schema then false
  else if !qualifies scope.include_tables table then false
  else if (match scope.exclude_schemas with
      | some r => r schema
      | none => false) then false
  else if (match scope.exclude_tables with
      | some r => r table
      | none => false) then false
  else true

/-! ## Concrete fixtures from the spec's seed scenarios -/

/-- Seed scenario 1: `UserID` (int, distinct 100, null 0). -/
def userIDProfile : ColumnProfile :=
  { name := "UserID", data_type := "int", nullable := false,
    distinct_count := some 100, null_count := some 0 }

/-- Seed scenario 1: `Description` (varchar(max), distinct 10, null 50). -/
def descriptionProfile : ColumnProfile :=
  { name := "Description", data_type := "varchar(max)", nullable := true,
    distinct_count := some 10, null_count := some 50 }

/-- A measured FD with clean statistics (full coverage, no violations). -/
def cleanFD (det : List String) (dep : String) : FunctionalDependency :=
  { determinant := det, dependent := dep, tested_rows := 100, coverage_pct := 100,
    total_groups := 10, violating_groups := 0, violating_groups_pct := 0,
    violating_rows := 0, violating_rows_pct := 0 }

/-- Seed scenario 5: strong FD `A→X`. -/
def fdAX : FunctionalDependency := cleanFD ["A"] "X"

/-- Seed scenario 5: strong FD `(A,B)→X`. -/
def fdABX : FunctionalDependency := cleanFD ["A", "B"] "X"

/-- Seed scenario 5: strong FD `(A,C)→X`. -/
def fdACX : FunctionalDependency := cleanFD ["A", "C"] "X"

/-- Sixteen high-scoring ETL-named columns (all match the exclusion regex). -/
def etlHeavyColumns : List ColumnProfile :=
  (List.range 16).map fun i =>
    { name := "etl_c" ++ toString i, data_type := "int", nullable := false,
      distinct_count := some 100, null_count := some 0 }

/-- A low-scoring ordinary column. -/
def notesColumn : ColumnProfile :=
  { name := "Notes", data_type := "varchar(100)", nullable := true,
    distinct_count := some 1, null_count := some 90 }

/-- A table whose 16 best-scored columns are all ETL-excluded. -/
def etlHeavyProfile : TableProfile :=
  { schema := "dbo", table := "T", row_count := 100, sample_clause := "",
    columns := etlHeavyColumns ++ [notesColumn] }

/-! ## C2: sampling-clause policy -/

/-- C2.  `build_sample_clause N` is empty iff `N ≤ FULL_SCAN_MAX_ROWS`;
otherwise it emits `TABLESAMPLE (pct PERCENT)` with
`pct = clamp(SAMPLE_TARGET_ROWS / N × 100, SAMPLE_MIN_PCT, SAMPLE_MAX_PCT)`
formatted to 4 decimal places, and that percentage always lies between
`SAMPLE_MIN_PCT` and `SAMPLE_MAX_PCT` inclusive. -/
theorem c2_build_sample_clause_spec (N : ℕ) :
    (build_sample_clause N = "" ↔ N ≤ FULL_SCAN_MAX_ROWS) ∧
    (FULL_SCAN_MAX_ROWS < N →
      SAMPLE_MIN_PCT ≤ samplePct N ∧ samplePct N ≤ SAMPLE_MAX_PCT ∧
      build_sample_clause N =
        "TABLESAMPLE (" ++ formatFixed4 (samplePct N) ++ " PERCENT)") := by
  constructor
  · constructor
    · intro h
      by_contra hN
      rw [build_sample_clause, if_neg hN] at h
      have hd := congrArg String.data h
      simp [String.data_append] at hd
    · intro h
      rw [build_sample_clause, if_pos h]
  · intro hN
    refine ⟨le_max_left _ _, ?_, ?_⟩
    · refine max_le ?_ (min_le_right _ _)
      norm_num [SAMPLE_MIN_PCT, SAMPLE_MAX_PCT]
    · rw [build_sample_clause, if_neg (not_le.mpr hN)]

unseal Rat.add Rat.mul Rat.inv Rat.sub Rat.ofScientific in
/-- Witness for C2 at `N = 2000001`, just above the full-scan limit. -/
theorem c2_build_sample_clause_spec_witness :
    SAMPLE_MIN_PCT ≤ samplePct 2000001 ∧ samplePct 2000001 ≤ SAMPLE_MAX_PCT ∧
    build_sample_clause 2000001 =
      "TABLESAMPLE (" ++ formatFixed4 (samplePct 2000001) ++ " PERCENT)" :=
  (c2_build_sample_clause_spec 2000001).2 (by decide)

/-! ## C3: sampling-clause values at the three seed row counts -/

unseal Rat.add Rat.mul Rat.inv Rat.sub Rat.ofScientific in
/-- C3 counterexample.  At row count 100,000,000 the clause is NOT the
claimed `TABLESAMPLE (2.0000 PERCENT)`: with the default configuration
`SAMPLE_TARGET_ROWS / N × 100 = 0.2`, which is below `SAMPLE_MAX_PCT`, so the
percentage is floored at `SAMPLE_MIN_PCT = 0.2`, not capped at 2.0. -/
theorem c3_counterexample :
    build_sample_clause 100000000 ≠ "TABLESAMPLE (2.0000 PERCENT)" := by
  decide

unseal Rat.add Rat.mul Rat.inv Rat.sub Rat.ofScientific in
/-- C3 amended.  Row count 1,000,000 gives the empty clause, 10,000,000 gives
`TABLESAMPLE (2.0000 PERCENT)` (capped at `SAMPLE_MAX_PCT`), and 100,000,000
gives `TABLESAMPLE (0.2000 PERCENT)` (floored at `SAMPLE_MIN_PCT`). -/
theorem c3_sample_clause_values :
    build_sample_clause 1000000 = "" ∧
    build_sample_clause 10000000 = "TABLESAMPLE (2.0000 PERCENT)" ∧
    build_sample_clause 100000000 = "TABLESAMPLE (0.2000 PERCENT)" := by
  decide

/-! ## C5: proposal builder confidence -/

/-- A 3NF issue whose violating-row percentage is `0.01` — the largest value
`FunctionalDependency.is_strong` admits (the analyzer's percentages live in
`[0,100]`, so this means 0.01 % of tested rows). -/
def issueSmallViolation : FDSummary :=
  { determinant := ["ZipCode"], dependent := "City", coverage_pct := 100,
    violating_groups_pct := 0.01, violating_rows_pct := 0.01 }

/-- A 3NF issue with no violating rows. -/
def issueNoViolation : FDSummary :=
  { determinant := ["ZipCode"], dependent := "City", coverage_pct := 100,
    violating_groups_pct := 0, violating_rows_pct := 0 }

/-- Analyzer output holding exactly the small-violation 3NF issue. -/
def resultSmallViolation : NormalizationResult :=
  { working_key := ["ID"], prime_columns := ["ID"], second_nf_issues := [],
    third_nf_issues := [issueSmallViolation] }

/-- Analyzer output holding exactly the violation-free 3NF issue. -/
def resultNoViolation : NormalizationResult :=
  { working_key := ["ID"], prime_columns := ["ID"], second_nf_issues := [],
    third_nf_issues := [issueNoViolation] }

unseal Rat.add Rat.mul Rat.inv Rat.sub Rat.ofScientific in
/-- C5.  `ProposalBuilder.build` emits one proposal per 3NF issue with the
issue's determinant and one-element dependent list, but it computes
`max(0.1, 1 − violating_rows_pct)` on the analyzer's RAW percentage, without
the normalization to a `[0,1]` fraction the claim requires: at percentage
`0.01` the code yields confidence `0.99`, while the claimed formula yields
`max(0.1, 1 − 0.01/100) = 0.9999`.  The two agree only at zero violating
rows, where both give `1.0`. -/
theorem c5_confidence_uses_raw_percentage :
    ((ProposalBuilder.build resultSmallViolation).map Proposal.determinant = [["ZipCode"]] ∧
     (ProposalBuilder.build resultSmallViolation).map Proposal.dependents = [["City"]] ∧
     (ProposalBuilder.build resultSmallViolation).map Proposal.confidence = [99/100]) ∧
    (99/100 : ℚ) ≠ max 0.1 (1 - issueSmallViolation.violating_rows_pct / 100) ∧
    (ProposalBuilder.build resultNoViolation).map Proposal.confidence = [1] := by
  decide

/-! ## C6: empty table yields nothing strong and no proposals -/

/-- `minimizeLoop` never accepts anything from a run of non-strong FDs. -/
theorem minimizeLoop_of_no_strong (accepted : List FunctionalDependency) :
    ∀ rest : List FunctionalDependency, (∀ fd ∈ rest, ¬ fd.is_strong) →
      FDDiscoverer.minimizeLoop accepted rest = accepted
  | [], _ => rfl
  | fd :: rest, h => by
    rw [FDDiscoverer.minimizeLoop, if_neg (h fd (List.mem_cons_self fd rest))]
    exact minimizeLoop_of_no_strong accepted rest fun g hg => h g (List.mem_cons_of_mem _ hg)

unseal Rat.add Rat.mul Rat.inv Rat.sub Rat.ofScientific in
/-- C6.  With row count 0 every key-combination measurement has tested rows 0,
so its duplicate percentage is 1.0 and it is not strong; every FD measurement
has coverage 0 and is not strong; and a table whose measured FDs are all
non-strong yields an empty accepted-FD list and an empty proposal list. -/
theorem c6_zero_rows_no_strong_no_proposals :
    (∀ (cols : List String) (de nr : ℕ),
      (KeyFinder.combination_stats cols 0 de nr).dup_pct = 1 ∧
      ¬ (KeyFinder.combination_stats cols 0 de nr).is_strong) ∧
    (∀ (det : List String) (dep : String) (tg vg vr : ℕ)
        (s : List (List (String × String))),
      (FDDiscoverer.fd_stats det dep 0 0 tg vg vr s).coverage_pct = 0 ∧
      ¬ (FDDiscoverer.fd_stats det dep 0 0 tg vg vr s).is_strong) ∧
    (∀ fds : List FunctionalDependency, (∀ fd ∈ fds, ¬ fd.is_strong) →
      FDDiscoverer._minimize fds = [] ∧
      ∀ (fk : Option (List String)) (keys : List KeyCandidate) (pool : List String),
        ProposalBuilder.build
          (NormalizationAnalyzer.analyze fk keys pool (FDDiscoverer._minimize fds)) = []) := by
  have hdup : ∀ (cols : List String) (de nr : ℕ),
      (KeyFinder.combination_stats cols 0 de nr).dup_pct = 1 := by
    intro cols de nr
    show (1.0 : ℚ) = 1
    decide
  refine ⟨fun cols de nr => ⟨hdup cols de nr, ?_⟩,
    fun det dep tg vg vr s => ⟨rfl, ?_⟩, fun fds hall => ?_⟩
  · intro hstrong
    have h2 := hstrong.1
    rw [hdup cols de nr] at h2
    exact absurd h2 (by decide)
  · intro hstrong
    have h2 := hstrong.1
    have h1 : (FDDiscoverer.fd_stats det dep 0 0 tg vg vr s).coverage_pct = 0 := rfl
    rw [h1] at h2
    exact absurd h2 (by decide)
  · have hmin : FDDiscoverer._minimize fds = [] := by
      rw [FDDiscoverer._minimize]
      exact minimizeLoop_of_no_strong [] _ fun fd hfd =>
        hall fd ((List.mem_insertionSort fdLE).mp hfd)
    refine ⟨hmin, fun fk keys pool => ?_⟩
    rw [hmin]
    rfl

/-- A measured FD of an empty table: every count is 0. -/
def zeroRowsFD : FunctionalDependency :=
  FDDiscoverer.fd_stats ["B"] "C" 0 0 0 0 0 []

unseal Rat.add Rat.mul Rat.inv Rat.sub Rat.ofScientific in
/-- Witness for C6 at concrete empty-table measurements. -/
theorem c6_zero_rows_no_strong_no_proposals_witness :
    ((KeyFinder.combination_stats ["A"] 0 0 0).dup_pct = 1 ∧
      ¬ (KeyFinder.combination_stats ["A"] 0 0 0).is_strong) ∧
    ((FDDiscoverer.fd_stats ["B"] "C" 0 0 0 0 0 []).coverage_pct = 0 ∧
      ¬ (FDDiscoverer.fd_stats ["B"] "C" 0 0 0 0 0 []).is_strong) ∧
    FDDiscoverer._minimize [zeroRowsFD] = [] ∧
    ProposalBuilder.build
      (NormalizationAnalyzer.analyze none [] ["A"] (FDDiscoverer._minimize [zeroRowsFD])) = [] := by
  obtain ⟨h1, h2, h3⟩ := c6_zero_rows_no_strong_no_proposals
  exact ⟨h1 ["A"] 0 0, h2 ["B"] "C" 0 0 0 [],
    (h3 [zeroRowsFD] (by decide)).1, (h3 [zeroRowsFD] (by decide)).2 none [] ["A"]⟩

/-! ## C7: column scoring formula -/

/-- The claim's scoring formula taken literally: the `−0.05` type bonus
applies only to NON-blob varchar/nvarchar columns. -/
def claimedScore (profile_row_count : ℕ) (col : ColumnProfile) : ℚ :=
  let row_count : ℚ := ((max profile_row_count 1 : ℕ) : ℚ)
  let nnRatio : ℚ := 1 - ((col.null_count.getD 0 : ℕ) : ℚ) / row_count
  let dRatio : ℚ := ((col.distinct_count.getD 0 : ℕ) : ℚ) / row_count
  let typeBonus : ℚ :=
    if col.data_type ∈ ["int", "bigint", "uniqueidentifier", "date", "datetime", "datetime2"]
      then 0.2
    else if (charsPrefix "nvarchar".data col.data_type.data ||
        charsPrefix "varchar".data col.data_type.data) ∧ col.data_type ∉ BLOB_TYPES
      then -0.05
    else 0
  let nameBonus : ℚ := if nameHintSearch col.name then 0.15 else 0
  let blobPenalty : ℚ := if col.data_type ∈ BLOB_TYPES then -0.3 else 0
  0.6 * nnRatio + 0.6 * min dRatio 1.5 + typeBonus + nameBonus + blobPenalty

/-- The amended scoring formula: identical to the claim's except that the
`−0.05` varchar/nvarchar type bonus also applies to the blob variants
`varchar(max)`/`nvarchar(max)` (which additionally receive the `−0.30` blob
penalty). -/
def amendedScore (profile_row_count : ℕ) (col : ColumnProfile) : ℚ :=
  let row_count : ℚ := ((max profile_row_count 1 : ℕ) : ℚ)
  let nnRatio : ℚ := 1 - ((col.null_count.getD 0 : ℕ) : ℚ) / row_count
  let dRatio : ℚ := ((col.distinct_count.getD 0 : ℕ) : ℚ) / row_count
  let typeBonus : ℚ :=
    if col.data_type ∈ ["int", "bigint", "uniqueidentifier", "date", "datetime", "datetime2"]
      then 0.2
    else if charsPrefix "nvarchar".data col.data_type.data ||
        charsPrefix "varchar".data col.data_type.data
      then -0.05
    else 0
  let nameBonus : ℚ := if nameHintSearch col.name then 0.15 else 0
  let blobPenalty : ℚ := if col.data_type ∈ BLOB_TYPES then -0.3 else 0
  0.6 * nnRatio + 0.6 * min dRatio 1.5 + typeBonus + nameBonus + blobPenalty

unseal Rat.add Rat.mul Rat.inv Rat.sub Rat.ofScientific in
/-- C7 counterexample.  On the claim's own seed column `Description`
(`varchar(max)`, 100 rows, distinct 10, null 50) the code's score is `0.01`
while the claimed formula gives `0.06`: the code grants the `−0.05`
varchar bonus to blob varchars too. -/
theorem c7_counterexample :
    DeterminantSelector.score_column 100 descriptionProfile ≠
      claimedScore 100 descriptionProfile ∧
    DeterminantSelector.score_column 100 descriptionProfile = 1/100 ∧
    claimedScore 100 descriptionProfile = 3/50 := by
  decide

unseal Rat.add Rat.mul Rat.inv Rat.sub Rat.ofScientific in
/-- C7 amended.  `score_column` equals the claimed formula with the type
bonus corrected to cover blob varchars, and on the seed columns
`score(UserID) > score(Description)` as the claim states. -/
theorem c7_score_formula_amended :
    (∀ (rc : ℕ) (col : ColumnProfile),
      DeterminantSelector.score_column rc col = amendedScore rc col) ∧
    DeterminantSelector.score_column 100 descriptionProfile <
      DeterminantSelector.score_column 100 userIDProfile := by
  refine ⟨fun rc col => ?_, by decide⟩
  simp only [DeterminantSelector.score_column, amendedScore]
  ring

/-! ## C9: scope filter -/

/-- C9.  `Runner._in_scope` accepts exactly when all five scope conditions
hold: the allowlist (when configured and non-empty — Python truthiness makes
an empty allowlist equivalent to none) contains the fully-qualified name,
each configured include regex matches, and each configured exclude regex
does not match.  In particular with allowlist `{"dbo.Orders"}`,
`(dbo, Customers)` is rejected regardless of the four regex settings, and
`(dbo, Orders)` passes when no regexes are configured. -/
theorem c9_in_scope_characterization :
    (∀ (scope : Scope) (schema table : String),
      Runner.in_scope scope schema table = true ↔
        ((∀ l, scope.table_allowlist = some l → l = [] ∨ (schema ++ "." ++ table) ∈ l) ∧
         (∀ r, scope.include_schemas = some r → r schema = true) ∧
         (∀ r, scope.include_tables = some r → r table = true) ∧
         (∀ r, scope.exclude_schemas = some r → r schema = false) ∧
         (∀ r, scope.exclude_tables = some r → r table = false))) ∧
    (∀ is es it et : Option (String → Bool),
      Runner.in_scope ⟨is, es, it, et, some ["dbo.Orders"]⟩ "dbo" "Customers" = false) ∧
    Runner.in_scope { table_allowlist := some ["dbo.Orders"] } "dbo" "Orders" = true := by
  refine ⟨?_, fun _ _ _ _ => rfl, rfl⟩
  intro scope schema table
  obtain ⟨is, es, it, et, al⟩ := scope
  simp only [Runner.in_scope, qualifies]
  cases al <;> cases is <;> cases es <;> cases it <;> cases et <;>
    simp [List.isEmpty_iff, List.contains, List.elem_iff, imp_false, or_iff_not_imp_left]

/-! ## C4: 2NF/3NF issue characterization -/

/-- C4.  For any working-key column set (in particular the one
`NormalizationAnalyzer` chooses, whose prime set equals the key set) and any
accepted FD `X → y`, `analyze` reports a 2NF issue exactly when the key is
composite, `X` is a strict subset of the key and `y` is non-prime, and a 3NF
issue exactly when `X` is not a superset of the key and `y` is non-prime. -/
theorem c4_analyze_issue_characterization (key_cols : Finset String)
    (fds : List FunctionalDependency) (fd : FunctionalDependency) (hmem : fd ∈ fds) :
    (fd ∈ NormalizationAnalyzer.second_nf_fds key_cols fds ↔
      1 < key_cols.card ∧ fd.determinant.toFinset ⊂ key_cols ∧
        fd.dependent ∉ key_cols) ∧
    (fd ∈ NormalizationAnalyzer.third_nf_fds key_cols fds ↔
      ¬ key_cols ⊆ fd.determinant.toFinset ∧ fd.dependent ∉ key_cols) := by
  constructor
  · simp only [NormalizationAnalyzer.second_nf_fds, List.mem_filter, decide_eq_true_eq,
      hmem, true_and]
    constructor
    · rintro ⟨-, hcard, hsub, hne, hdep⟩
      exact ⟨hcard, Finset.ssubset_iff_subset_ne.mpr ⟨hsub, hne⟩, hdep⟩
    · rintro ⟨hcard, hss, hdep⟩
      obtain ⟨hsub, hne⟩ := Finset.ssubset_iff_subset_ne.mp hss
      exact ⟨Finset.card_pos.mp (lt_of_le_of_lt (Nat.zero_le 1) hcard), hcard, hsub, hne, hdep⟩
  · simp only [NormalizationAnalyzer.third_nf_fds, List.mem_filter, decide_eq_true_eq,
      hmem, true_and]
    constructor
    · rintro ⟨-, hns, hdep⟩
      exact ⟨hns, hdep⟩
    · rintro ⟨hns, hdep⟩
      refine ⟨?_, hns, hdep⟩
      rw [Finset.nonempty_iff_ne_empty]
      rintro rfl
      exact hns (Finset.empty_subset _)

/-- Seed scenario 2: strong FD `A→C` under working key `(A,B)`. -/
def fdAC : FunctionalDependency := cleanFD ["A"] "C"

/-- Witness for C4: under key `{A,B}` the FD `A→C` is both a 2NF and a 3NF
issue. -/
theorem c4_analyze_issue_characterization_witness :
    fdAC ∈ NormalizationAnalyzer.second_nf_fds (["A", "B"].toFinset) [fdAC] ∧
    fdAC ∈ NormalizationAnalyzer.third_nf_fds (["A", "B"].toFinset) [fdAC] := by
  have h := c4_analyze_issue_characterization (["A", "B"].toFinset) [fdAC] fdAC (by decide)
  exact ⟨h.1.mpr (by decide), h.2.mpr (by decide)⟩

/-! ## C10: every 2NF issue is also a 3NF issue and yields a proposal -/

/-- C10.  Any FD flagged as a 2NF issue under the analyzer's working key is
also flagged as a 3NF issue by the same call (a strict subset of the key is
in particular not a superset of it), and since `ProposalBuilder.build` emits
one proposal per 3NF issue, such an FD gives rise to a proposal with its
determinant and its dependent. -/
theorem c10_second_nf_implies_third_nf_proposal (fk : Option (List String))
    (keys : List KeyCandidate) (pool : List String) (fds : List FunctionalDependency)
    (fd : FunctionalDependency)
    (h2 : fd ∈ NormalizationAnalyzer.second_nf_fds
      ((NormalizationAnalyzer.working_key fk keys pool).toFinset) fds) :
    fd ∈ NormalizationAnalyzer.third_nf_fds
      ((NormalizationAnalyzer.working_key fk keys pool).toFinset) fds ∧
    ∃ p ∈ ProposalBuilder.build (NormalizationAnalyzer.analyze fk keys pool fds),
      p.determinant = fd.determinant ∧ p.dependents = [fd.dependent] := by
  rw [NormalizationAnalyzer.second_nf_fds, List.mem_filter, decide_eq_true_eq] at h2
  obtain ⟨hmem, hne, hcard, hsub, hneq, hdep⟩ := h2
  have h3 : fd ∈ NormalizationAnalyzer.third_nf_fds
      ((NormalizationAnalyzer.working_key fk keys pool).toFinset) fds := by
    rw [NormalizationAnalyzer.third_nf_fds, List.mem_filter, decide_eq_true_eq]
    refine ⟨hmem, hne, ?_, hdep⟩
    intro hKX
    exact hneq (Finset.Subset.antisymm hsub hKX)
  have hsum : NormalizationAnalyzer.fd_summary fd ∈
      (NormalizationAnalyzer.analyze fk keys pool fds).third_nf_issues :=
    List.mem_map_of_mem _ h3
  exact ⟨h3, _, List.mem_map_of_mem _ hsum, rfl, rfl⟩

/-- A strong composite key candidate `(A, B)`. -/
def kAB : KeyCandidate :=
  { columns := ["A", "B"], tested_rows := 100, duplicate_excess_rows := 0,
    dup_pct := 0, null_rows := 0, null_pct := 0 }

/-- Witness for C10 on seed scenario 2: key `(A,B)`, FD `A→C`. -/
theorem c10_second_nf_implies_third_nf_proposal_witness :
    fdAC ∈ NormalizationAnalyzer.third_nf_fds
      ((NormalizationAnalyzer.working_key none [kAB] []).toFinset) [fdAC] ∧
    ∃ p ∈ ProposalBuilder.build (NormalizationAnalyzer.analyze none [kAB] [] [fdAC]),
      p.determinant = fdAC.determinant ∧ p.dependents = [fdAC.dependent] :=
  c10_second_nf_implies_third_nf_proposal none [kAB] [] [fdAC] fdAC (by decide)

/-! ## C1: minimization keeps only strong FDs and no redundant supersets -/

/-- `fdLE` is monotone in determinant length: the sort of `_minimize` orders
FDs by non-decreasing determinant size. -/
theorem fdLE_length_le {a b : FunctionalDependency} (h : fdLE a b) :
    a.determinant.length ≤ b.determinant.length := by
  by_contra hlt
  exact h (Or.inl (Nat.lt_of_not_le hlt))

/-- Invariant of `minimizeLoop`: walking a length-sorted run of FDs starting
from a strong, superset-free accumulator yields a strong, superset-free
result.  The `Nodup` hypotheses reflect that measured determinants are
`itertools.combinations` of distinct pool columns. -/
theorem minimizeLoop_invariant (rest : List FunctionalDependency) :
    ∀ accepted : List FunctionalDependency,
      (∀ g ∈ accepted, g.is_strong) →
      (∀ f1 ∈ accepted, ∀ f2 ∈ accepted, f1.dependent = f2.dependent →
        ¬ f1.determinant.toFinset ⊂ f2.determinant.toFinset) →
      (∀ g ∈ accepted, ∀ h ∈ rest, g.determinant.length ≤ h.determinant.length) →
      (rest.Pairwise fun a b => a.determinant.length ≤ b.determinant.length) →
      (∀ g ∈ accepted, g.determinant.Nodup) →
      (∀ g ∈ rest, g.determinant.Nodup) →
      (∀ g ∈ FDDiscoverer.minimizeLoop accepted rest, g.is_strong) ∧
      (∀ f1 ∈ FDDiscoverer.minimizeLoop accepted rest,
        ∀ f2 ∈ FDDiscoverer.minimizeLoop accepted rest,
        f1.dependent = f2.dependent →
          ¬ f1.determinant.toFinset ⊂ f2.determinant.toFinset) := by
  induction rest with
  | nil =>
    intro accepted hs hp _ _ _ _
    exact ⟨hs, hp⟩
  | cons fd rest ih =>
    intro accepted hs hp hlen hsort hndA hndR
    rw [FDDiscoverer.minimizeLoop]
    split_ifs with hstrong hex
    · exact ih accepted hs hp
        (fun g hg h hh => hlen g hg h (List.mem_cons_of_mem _ hh))
        hsort.of_cons hndA (fun g hg => hndR g (List.mem_cons_of_mem _ hg))
    · refine ih (accepted ++ [fd]) ?_ ?_ ?_ hsort.of_cons ?_
        (fun g hg => hndR g (List.mem_cons_of_mem _ hg))
      · intro g hg
        rcases List.mem_append.mp hg with h | h
        · exact hs g h
        · rw [List.mem_singleton] at h
          rw [h]
          exact hstrong
      · intro f1 h1 f2 h2 hdep hss
        rcases List.mem_append.mp h1 with ha1 | ha1 <;>
          rcases List.mem_append.mp h2 with ha2 | ha2
        · exact hp f1 ha1 f2 ha2 hdep hss
        · rw [List.mem_singleton] at ha2
          rw [ha2] at hdep hss
          exact hex ⟨f1, ha1,
            fun c hc => List.mem_toFinset.mp (hss.subset (List.mem_toFinset.mpr hc)), hdep⟩
        · rw [List.mem_singleton] at ha1
          rw [ha1] at hss
          have hc1 : fd.determinant.toFinset.card < f2.determinant.toFinset.card :=
            Finset.card_lt_card hss
          rw [List.toFinset_card_of_nodup (hndR fd (List.mem_cons_self _ _)),
            List.toFinset_card_of_nodup (hndA f2 ha2)] at hc1
          exact absurd (hlen f2 ha2 fd (List.mem_cons_self _ _)) (Nat.not_le.mpr hc1)
        · rw [List.mem_singleton] at ha1 ha2
          rw [ha1, ha2] at hss
          exact ssubset_irrefl _ hss
      · intro g hg h hh
        rcases List.mem_append.mp hg with h' | h'
        · exact hlen g h' h (List.mem_cons_of_mem _ hh)
        · rw [List.mem_singleton] at h'
          rw [h']
          exact List.rel_of_pairwise_cons hsort hh
      · intro g hg
        rcases List.mem_append.mp hg with h' | h'
        · exact hndA g h'
        · rw [List.mem_singleton] at h'
          rw [h']
          exact hndR fd (List.mem_cons_self _ _)
    · exact ih accepted hs hp
        (fun g hg h hh => hlen g hg h (List.mem_cons_of_mem _ hh))
        hsort.of_cons hndA (fun g hg => hndR g (List.mem_cons_of_mem _ hg))

unseal Rat.add Rat.mul Rat.inv Rat.sub Rat.ofScientific in
/-- C1.  For measured FDs (whose determinants are duplicate-free column
combinations), `_minimize` returns only strong FDs, the result never contains
two FDs with the same dependent where one determinant is a strict subset of
the other, and on the seed input `{A→X, (A,B)→X, (A,C)→X}` (all strong) only
`A→X` survives. -/
theorem c1_minimize_strong_no_strict_subset_pairs
    (fds : List FunctionalDependency) (hnd : ∀ fd ∈ fds, fd.determinant.Nodup) :
    (∀ g ∈ FDDiscoverer._minimize fds, g.is_strong) ∧
    (∀ f1 ∈ FDDiscoverer._minimize fds, ∀ f2 ∈ FDDiscoverer._minimize fds,
      f1.dependent = f2.dependent → ¬ f1.determinant.toFinset ⊂ f2.determinant.toFinset) ∧
    FDDiscoverer._minimize [fdAX, fdABX, fdACX] = [fdAX] := by
  have hsorted : (fds.insertionSort fdLE).Pairwise
      fun a b => a.determinant.length ≤ b.determinant.length :=
    (List.sorted_insertionSort fdLE fds).imp fun h => fdLE_length_le h
  have h := minimizeLoop_invariant (fds.insertionSort fdLE) []
    (by simp) (by simp) (by simp) hsorted (by simp)
    (fun g hg => hnd g ((List.mem_insertionSort fdLE).mp hg))
  exact ⟨h.1, h.2, by decide⟩

/-- Witness for C1 on the seed minimization scenario. -/
theorem c1_minimize_strong_no_strict_subset_pairs_witness :
    FDDiscoverer._minimize [fdAX, fdABX, fdACX] = [fdAX] :=
  (c1_minimize_strong_no_strict_subset_pairs [fdAX, fdABX, fdACX] (by decide)).2.2

/-! ## C8: determinant pool membership -/

/-- In a descending-sorted list, an element of the first `n` positions is
strictly exceeded in score by fewer than `n` elements of the list. -/
theorem length_filter_score_lt_of_mem_take {F : List ColumnProfile} {n : ℕ}
    {c : ColumnProfile} (hc : c ∈ F.take n)
    (hsort : F.Pairwise DeterminantSelector.scoreGE) :
    (F.filter fun d => decide (c.score < d.score)).length < n := by
  induction F generalizing n with
  | nil => simp at hc
  | cons a F ih =>
    cases n with
    | zero => simp at hc
    | succ m =>
      rw [List.take_succ_cons] at hc
      rw [List.filter_cons]
      rcases List.mem_cons.mp hc with rfl | hc'
      · have hnil : (F.filter fun d => decide (c.score < d.score)) = [] := by
          rw [List.filter_eq_nil_iff]
          intro d hd
          simp only [decide_eq_true_eq, not_lt]
          exact List.rel_of_pairwise_cons hsort hd
        simp [hnil]
      · have hlt := ih hc' hsort.of_cons
        split
        · simp only [List.length_cons]
          omega
        · omega

/-- C8 amended.  A column name appears in the determinant pool only if it
does not match the ETL exclusion regex and it names a column whose score is
among the top `DETERMINANT_POOL_SIZE` scores of the table's NON-EXCLUDED
columns — i.e. fewer than `DETERMINANT_POOL_SIZE` non-excluded columns score
strictly higher (the source filters excluded names before truncating). -/
theorem c8_pool_top_scores_amended (profile : TableProfile) (name : String)
    (hmem : name ∈ DeterminantSelector.build_pool profile) :
    etlExcluded name = false ∧
    ∃ c ∈ profile.columns, c.name = name ∧
      (profile.columns.filter fun d => !etlExcluded d.name &&
        decide (DeterminantSelector.score_column profile.row_count c <
          DeterminantSelector.score_column profile.row_count d)).length <
      DETERMINANT_POOL_SIZE := by
  classical
  simp only [DeterminantSelector.build_pool] at hmem
  rw [← List.map_take] at hmem
  obtain ⟨c, hcTake, hcName⟩ := List.mem_map.mp hmem
  have hcF := List.mem_of_mem_take hcTake
  obtain ⟨hcSorted, hcKeep⟩ := List.mem_filter.mp hcF
  have hcScored := (List.mem_insertionSort DeterminantSelector.scoreGE).mp hcSorted
  obtain ⟨c0, hc0, hc0eq⟩ := List.mem_map.mp hcScored
  have hFsorted : ((profile.columns.map fun c =>
        { c with score := DeterminantSelector.score_column profile.row_count c })
          |>.insertionSort DeterminantSelector.scoreGE
          |>.filter fun c => !etlExcluded c.name).Pairwise
        DeterminantSelector.scoreGE :=
    (List.sorted_insertionSort DeterminantSelector.scoreGE _).filter _
  have hcount := length_filter_score_lt_of_mem_take hcTake hFsorted
  constructor
  · rw [← hcName]
    simpa using hcKeep
  · refine ⟨c0, hc0, by rw [← hcName, ← hc0eq], ?_⟩
    rw [← List.countP_eq_length_filter] at hcount ⊢
    rw [List.countP_filter,
      ((List.perm_insertionSort DeterminantSelector.scoreGE _).countP_eq _),
      List.countP_map] at hcount
    refine lt_of_le_of_lt (le_of_eq (List.countP_congr ?_)) hcount
    intro d _
    rw [← hc0eq]
    simp only [Function.comp_apply, Bool.and_eq_true, decide_eq_true_eq]
    exact and_comm

unseal Rat.add Rat.mul Rat.inv Rat.sub Rat.ofScientific in
/-- C8 counterexample.  In `etlHeavyProfile`, `Notes` is in the determinant
pool, yet `DETERMINANT_POOL_SIZE = 15` or more of the table's columns (all
ETL-excluded) score strictly higher than `Notes`, so its score is NOT among
the top `DETERMINANT_POOL_SIZE` scores of the table's columns: the exclusion
regex is applied before, not after, the truncation. -/
theorem c8_counterexample :
    "Notes" ∈ DeterminantSelector.build_pool etlHeavyProfile ∧
    DETERMINANT_POOL_SIZE ≤ (etlHeavyProfile.columns.filter fun c =>
      decide (DeterminantSelector.score_column etlHeavyProfile.row_count notesColumn <
        DeterminantSelector.score_column etlHeavyProfile.row_count c)).length := by
  decide

unseal Rat.add Rat.mul Rat.inv Rat.sub Rat.ofScientific in
/-- Witness for the amended C8 on `etlHeavyProfile` and the pool member
`Notes`. -/
theorem c8_pool_top_scores_amended_witness :
    etlExcluded "Notes" = false ∧
    ∃ c ∈ etlHeavyProfile.columns, c.name = "Notes" ∧
      (etlHeavyProfile.columns.filter fun d => !etlExcluded d.name &&
        decide (DeterminantSelector.score_column etlHeavyProfile.row_count c <
          DeterminantSelector.score_column etlHeavyProfile.row_count d)).length <
      DETERMINANT_POOL_SIZE :=
  c8_pool_top_scores_amended etlHeavyProfile "Notes" (by decide)

end Audit
